import Mathlib

/-!
Shallow embedding of the MCP server process manager and JSON-RPC client of
Screen2Action: the class MCPClient in
src/backend/app/services/mcp_client.py and the command handler
MCPService._execute_command in src/backend/app/services/mcp_service.py.

Operating-system effects (environment variables, the config file, the
directory tree, child processes and their stdio pipes) are made explicit:
a World record carries the parts of the OS state the code reads and writes,
and the behaviour of a spawned child during one activation attempt is a
parameter (ChildBehavior) listing what the read loop observes.
-/

namespace Screen2Action

/-- Configuration record for one MCP server (the MCPServerConfig dataclass,
mcp_client.py lines 32-41). -/
structure MCPServerConfig where
  name : String
  command : String
  args : List String
  env : List (String × String) := []
  enabled : Bool := true
  description : String := ""
  icon : String := ""
deriving DecidableEq

/-- The parts of the operating-system state the client reads and writes: the
S2A_RECORDINGS_DIR environment variable, the recordingsDir value found in
config/app.json (the search over candidate config-file locations is
abstracted to this one optional value), the user's home directory, the
current working directory, a clock used as the mtime of newly created
directories, the existing directories with their mtimes, and the
child-process bookkeeping (next fresh pid, pids that have received
terminate or kill). -/
structure World where
  envRecordingsDir : Option String := none
  configRecordingsDir : Option String := none
  home : String := "/home/user"
  cwd : String := "/srv"
  now : Nat := 0
  fs : List (String × Nat) := []
  nextPid : Nat := 0
  terminated : List Nat := []
deriving DecidableEq

/-- Characterwise test that the first list starts with the second. -/
def listStartsWith : List Char → List Char → Bool
  | _, [] => true
  | [], _ :: _ => false
  | c :: cs, p :: ps => c == p && listStartsWith cs ps

/-- Does s start with pre? (Python str.startswith.) -/
def strStartsWith (s pre : String) : Bool := listStartsWith s.data pre.data

/-- Python str.strip(): remove leading and trailing whitespace. -/
def pyStrip (s : String) : String :=
  ⟨((s.data.dropWhile Char.isWhitespace).reverse.dropWhile Char.isWhitespace).reverse⟩

/-- Drop the first n characters (Python slicing counts characters). -/
def strDropN (s : String) (n : Nat) : String := ⟨s.data.drop n⟩

/-- Number of characters of s. -/
def strLen (s : String) : Nat := s.data.length

/-- Does s contain the character c? -/
def strContainsChar (s : String) (c : Char) : Bool := s.data.contains c

/-- Split a character list at every occurrence of sep, keeping empty
pieces (the semantics of Python str.split with an explicit separator). -/
def splitCharAux (sep : Char) : List Char → List Char → List (List Char)
  | [], acc => [acc.reverse]
  | c :: cs, acc =>
    if c == sep then acc.reverse :: splitCharAux sep cs []
    else splitCharAux sep cs (c :: acc)

/-- Split a string at every occurrence of sep, keeping empty pieces. -/
def splitChar (sep : Char) (s : String) : List String :=
  (splitCharAux sep s.data []).map (fun l => ⟨l⟩)

/-- Model of os.path.expanduser as used by the local helper _expand_home
(mcp_client.py lines 281-285): a leading tilde is replaced by the home
directory. -/
def expandHome (w : World) (p : String) : String :=
  if strStartsWith p "~" then w.home ++ strDropN p 1 else p

/-- Model of os.path.abspath for paths without dot segments: an absolute
path is returned unchanged, a relative one is joined to the cwd. -/
def absPathW (w : World) (p : String) : String :=
  if strStartsWith p "/" then p else w.cwd ++ "/" ++ p

/-- Does directory p exist in this world? -/
def World.dirExists (w : World) (p : String) : Bool :=
  w.fs.any (fun e => e.1 == p)

/-- Model of Path.mkdir(parents=True, exist_ok=True): records the directory
with the current clock as its mtime when it is absent; creation of missing
parent directories is elided, no claim reads an implicitly created parent. -/
def mkdirP (w : World) (p : String) : World :=
  if w.dirExists p then w else { w with fs := (p, w.now) :: w.fs }

/-- The directory _get_recordings_dir chooses (its pure part, mcp_client.py
lines 279-321): the stripped environment variable when nonempty, else the
stripped config value when nonempty, else Documents/Screen2Action/recordings
under the home directory. -/
def recordingsPath (w : World) : String :=
  let envDir := pyStrip (w.envRecordingsDir.getD "")
  if envDir ≠ "" then absPathW w (expandHome w envDir)
  else
    let cfg := pyStrip (w.configRecordingsDir.getD "")
    if cfg ≠ "" then absPathW w (expandHome w cfg)
    else w.home ++ "/Documents/Screen2Action/recordings"

/-- MCPClient._get_recordings_dir: resolves the recordings directory and
creates it (mkdir parents=True exist_ok=True) before returning it. -/
def _get_recordings_dir (w : World) : String × World :=
  (recordingsPath w, mkdirP w (recordingsPath w))

/-- The name of p as an immediate child of directory base, when it is one. -/
def childNameUnder (base p : String) : Option String :=
  if strStartsWith p (base ++ "/") then
    let rest := strDropN p (strLen (base ++ "/"))
    if rest != "" && !(strContainsChar rest '/') then some rest else none
  else none

/-- Model of os.scandir(base) filtered to directories, as (name, mtime)
pairs, in the order the world's directory table lists them (scandir order is
unspecified). -/
def scandirSubdirs (w : World) (base : String) : List (String × Nat) :=
  w.fs.filterMap (fun e => (childNameUnder base e.1).map (fun n => (n, e.2)))

/-- MCPClient._get_latest_session_id (lines 458-472): list the immediate
subdirectories of the recordings dir with their mtimes, return none when
there are no candidates, otherwise stable-sort by mtime descending (Python
list.sort with reverse=True is stable) and return the first name. -/
def _get_latest_session_id (w : World) : Option String × World :=
  let bw := _get_recordings_dir w
  let candidates := scandirSubdirs bw.2 bw.1
  if candidates = [] then (none, bw.2)
  else
    let sorted := candidates.mergeSort (fun a b => decide (b.2 ≤ a.2))
    (sorted.head?.map Prod.fst, bw.2)

/-- MCPClient._resolve_session_dir (lines 474-483): with an explicit session
id, the session subdirectory of the recordings dir; otherwise the latest
session subdirectory when one exists, else the recordings dir itself. -/
def _resolve_session_dir (w : World) (session_id : Option String) : String × World :=
  let bw := _get_recordings_dir w
  match session_id with
  | some sid => (bw.1 ++ "/" ++ sid, bw.2)
  | none =>
    let lw := _get_latest_session_id bw.2
    match lw.1 with
    | some l => (bw.1 ++ "/" ++ l, lw.2)
    | none => (bw.1, lw.2)

/-- The components of a POSIX path as pathlib keeps them: split on the
separator, dropping empty and single-dot segments. -/
def pathParts (p : String) : List String :=
  (splitChar '/' p).filter (fun c => c != "" && c != ".")

/-- Model of PurePath.name: the final path component, empty when there is
none. -/
def pathlibName (p : String) : String := ((pathParts p).getLast?).getD ""

/-- Model of Path(p).resolve().as_uri() for already-absolute, already
resolved paths with no characters needing percent-encoding. -/
def asFileUri (p : String) : String := "file://" ++ p

/-- One entry of the roots payload. -/
structure Root where
  uri : String
  name : String
deriving DecidableEq

/-- MCPClient._build_roots (lines 448-456): a single-entry roots payload for
the given local path; the entry's name is the path's final component, the
literal "root" when that is empty (Python: Path(base_path).name or "root"). -/
def _build_roots (base_path : String) : List Root :=
  let uri := asFileUri base_path
  let nm := pathlibName base_path
  [⟨uri, if nm = "" then "root" else nm⟩]

/-- The fields of a decoded inbound JSON-RPC message that the read loop of
activate_server inspects: the method, the id when the message carries one,
and whether a result or error member is present. -/
structure InMsg where
  method : Option String := none
  id : Option Nat := none
  hasResult : Bool := false
  hasError : Bool := false
deriving DecidableEq

/-- One observation of the read loop in activate_server: select timing out,
readline returning end-of-file, a blank line, a line that is not valid JSON,
or a decoded message. -/
inductive HandshakeEvent
  | timeout
  | eof
  | blank
  | malformed
  | msg (m : InMsg)
deriving DecidableEq

/-- A line the client writes to the child while activating it. -/
inductive OutEvent
  | initRequest
  | rootsResponse (id : Nat) (roots : List Root)
  | listChangedNotify
deriving DecidableEq

/-- What one run of the read loop produced: the lines written, and the local
flags init_done and roots_served of the source. -/
structure LoopOut where
  sent : List OutEvent
  initDone : Bool
  rootsServed : Bool
deriving DecidableEq

/-- The read loop of activate_server (mcp_client.py lines 614-671): events
are consumed in order until the deadline (end of the list), a select timeout
or end-of-file; a blank or malformed line is skipped; a roots/list request
carrying an id is answered inline with the precomputed roots payload; a
message with id 1 carrying a result or error marks init_done, a result
additionally triggering the roots/list_changed notification; any other
message is ignored. -/
def handshakeLoop (allowedRoots : List Root) : List HandshakeEvent → LoopOut
  | [] => ⟨[], false, false⟩
  | .timeout :: _ => ⟨[], false, false⟩
  | .eof :: _ => ⟨[], false, false⟩
  | .blank :: rest => handshakeLoop allowedRoots rest
  | .malformed :: rest => handshakeLoop allowedRoots rest
  | .msg m :: rest =>
    if hm : m.method = some "roots/list" ∧ m.id.isSome then
      let out := handshakeLoop allowedRoots rest
      ⟨.rootsResponse (m.id.get hm.2) allowedRoots :: out.sent, out.initDone, true⟩
    else if m.id = some 1 ∧ (m.hasResult ∨ m.hasError) then
      let out := handshakeLoop allowedRoots rest
      ⟨(if m.hasResult then [OutEvent.listChangedNotify] else []) ++ out.sent,
       true, out.rootsServed⟩
    else handshakeLoop allowedRoots rest

/-- The events the read loop actually consumes: the longest initial segment
before a select timeout or end-of-file stops it. -/
def consumedEvents : List HandshakeEvent → List HandshakeEvent
  | [] => []
  | .timeout :: _ => []
  | .eof :: _ => []
  | e :: rest => e :: consumedEvents rest

/-- Is this event an initialize response (a message with id 1 carrying a
result or error member)? -/
def isInitResponse : HandshakeEvent → Bool
  | .msg m => m.id == some 1 && (m.hasResult || m.hasError)
  | _ => false

/-- The mutable registry state of MCPClient: the configured servers (a
name-keyed map kept as an association list), the name of the active server,
and the process table mapping server names to pids. -/
structure ClientState where
  servers : List (String × MCPServerConfig)
  active_server : Option String := none
  server_processes : List (String × Nat) := []
deriving DecidableEq

/-- Terminate (then, if needed, kill) the process with this pid. -/
def killPid (w : World) (pid : Nat) : World :=
  { w with terminated := pid :: w.terminated }

/-- MCPClient.deactivate_server (lines 694-712): without an active server a
no-op; otherwise, when the active server owns a process-table entry, that
process is terminated (killed after the grace period if needed) and dropped
from the table; in every case the active slot is cleared. -/
def deactivate_server (s : ClientState) (w : World) : ClientState × World :=
  match s.active_server with
  | none => (s, w)
  | some a =>
    match s.server_processes.lookup a with
    | some pid =>
      ({ s with active_server := none,
                server_processes := s.server_processes.filter (fun e => e.1 != a) },
       killPid w pid)
    | none => ({ s with active_server := none }, w)

/-- How the child process spawned by one activation attempt behaves: whether
poll after the post-spawn grace period reports it already exited, what the
read loop observes, whether poll after the loop reports it exited, and the
text its stderr yields when read. -/
structure ChildBehavior where
  exitedDuringGrace : Bool := false
  events : List HandshakeEvent := []
  exitedAtFinalPoll : Bool := false
  stderrText : String := ""
deriving DecidableEq

/-- Everything one call of activate_server produced: the returned boolean,
the registry state and world afterwards, the argv the child was spawned
with, the lines written to it, the loop's init_done and roots_served flags,
and the messages passed to logger.error. -/
structure ActivateResult where
  ok : Bool
  state : ClientState
  world : World
  argv : List String := []
  sent : List OutEvent := []
  initDone : Bool := false
  rootsServed : Bool := false
  errorLog : List String := []
deriving DecidableEq

/-- Map-style insert into the process table (the dict assignment
self.server_processes[name] = process). -/
def insertProc (t : List (String × Nat)) (name : String) (pid : Nat) :
    List (String × Nat) :=
  t.filter (fun e => e.1 != name) ++ [(name, pid)]

/-- MCPClient.activate_server (lines 522-692). Unknown or disabled servers
fail fast; a currently active server is deactivated first; for the
filesystem server the session directory is resolved, created, and appended
to the argv; the child is spawned; if poll after the grace period reports it
exited, stderr is logged and activation fails; otherwise the initialize
request is written and the read loop runs until its deadline; if poll then
reports the child exited, stderr is logged and activation fails; otherwise
the process is stored, the server becomes active and true is returned (the
loop's init_done flag is never consulted). -/
def activate_server (s : ClientState) (w : World) (server_name : String)
    (session_id : Option String) (b : ChildBehavior) : ActivateResult :=
  match s.servers.lookup server_name with
  | none => ⟨false, s, w, [], [], false, false,
             ["Server " ++ server_name ++ " not found"]⟩
  | some server =>
    if !server.enabled then ⟨false, s, w, [], [], false, false, []⟩
    else
      let sw :=
        if s.active_server.isSome then deactivate_server s w else (s, w)
      let pw :=
        if server_name = "filesystem" then
          let tw := _resolve_session_dir sw.2 session_id
          (some tw.1, mkdirP tw.2 tw.1)
        else (none, sw.2)
      let argv := server.command :: server.args ++ pw.1.toList
      let pid := pw.2.nextPid
      let w3 : World := { pw.2 with nextPid := pid + 1 }
      if b.exitedDuringGrace then
        ⟨false, sw.1, w3, argv, [], false, false,
         [("MCP server " ++ server_name ++ " failed to start: ") ++ b.stderrText]⟩
      else
        let allowedBase := match pw.1 with | some p => p | none => w3.cwd
        let allowedRoots := _build_roots allowedBase
        let lo := handshakeLoop allowedRoots b.events
        let sent := OutEvent.initRequest :: lo.sent
        if b.exitedAtFinalPoll then
          ⟨false, sw.1, w3, argv, sent, lo.initDone, lo.rootsServed,
           ["MCP server terminated after init: " ++ b.stderrText]⟩
        else
          ⟨true,
           { sw.1 with
               server_processes := insertProc sw.1.server_processes server_name pid,
               active_server := some server_name },
           w3, argv, sent, lo.initDone, lo.rootsServed, []⟩

/-- The fields of a decoded tools/call response that execute_tool inspects:
whether an error member is present (and its payload), and the result payload
when one is present (the payload texts stand in for arbitrary JSON values). -/
structure RespMsg where
  hasError : Bool := false
  errorPayload : String := ""
  resultPayload : Option String := none
deriving DecidableEq

/-- What the blocking readline in execute_tool yields: end-of-file (the
closed pipe), a decoded response line, or an exception raised while writing
the request or reading or decoding the response. -/
inductive ReadOutcome
  | eof
  | line (m : RespMsg)
  | exn (msg : String)
deriving DecidableEq

/-- The value execute_tool returns: a dict with an error member, or the
response's result member (defaulting to the empty dict). -/
inductive ExecResult
  | errResult (msg : String)
  | okResult (payload : String)
deriving DecidableEq

/-- MCPClient.execute_tool (lines 714-755): with no active server, or with an
active server missing from the process table, a structured error dict is
returned at once; otherwise the tools/call request is written and one
response line is awaited with a blocking readline (no timeout is applied);
end-of-file yields the no-response error, an exception its text, a response
with an error member that payload, and otherwise the result payload. The
registry state is returned unchanged: no branch clears the active slot. -/
def execute_tool (s : ClientState) (r : ReadOutcome) : ExecResult × ClientState :=
  match s.active_server with
  | none => (.errResult "No active MCP server", s)
  | some a =>
    match s.server_processes.lookup a with
    | none => (.errResult "Active server process not found", s)
    | some _ =>
      match r with
      | .exn e => (.errResult e, s)
      | .eof => (.errResult "No response from MCP server", s)
      | .line m =>
        if m.hasError then (.errResult m.errorPayload, s)
        else (.okResult (m.resultPayload.getD "emptydict"), s)

/-- The fields of a decoded tools/list response that list_tools inspects. -/
structure ToolsRespMsg where
  hasResultTools : Bool := false
  tools : List String := []
  hasError : Bool := false
deriving DecidableEq

/-- What the select-guarded readline in list_tools yields. -/
inductive ListOutcome
  | timeout
  | eof
  | line (m : ToolsRespMsg)
  | brokenPipe
  | exn
deriving DecidableEq

/-- MCPClient.list_tools (lines 757-820): with no active server, or with the
active server missing from the process table, the empty list is returned
unchanged (not an error value); a dead process (poll not None) is removed
from the table and the active slot cleared before returning the empty list;
otherwise the tools/list request is sent and one line awaited under a 2
second select timeout; a response carrying result.tools yields those tools,
every other outcome the empty list, with BrokenPipeError additionally
clearing the process table entry and the active slot; the fall-through path
(a response with a result but no tools member) returns Python None. -/
def list_tools (s : ClientState) (procAlive : Bool) (r : ListOutcome) :
    Option (List String) × ClientState :=
  match s.active_server with
  | none => (some [], s)
  | some a =>
    match s.server_processes.lookup a with
    | none => (some [], s)
    | some _ =>
      if !procAlive then
        (some [],
         { s with server_processes := s.server_processes.filter (fun e => e.1 != a),
                  active_server := none })
      else
        match r with
        | .timeout => (some [], s)
        | .eof => (some [], s)
        | .brokenPipe =>
          (some [],
           { s with server_processes := s.server_processes.filter (fun e => e.1 != a),
                    active_server := none })
        | .exn => (some [], s)
        | .line m =>
          if m.hasResultTools then (some m.tools, s)
          else if m.hasError then (some [], s)
          else (none, s)

/-- Python str.split() with no separator: split on whitespace runs, dropping
empty pieces; the first argument is the remaining input, the second the
current word reversed. -/
def splitWsAux : List Char → List Char → List String
  | [], acc => if acc.isEmpty then [] else [⟨acc.reverse⟩]
  | c :: cs, acc =>
    if c.isWhitespace then
      if acc.isEmpty then splitWsAux cs []
      else ⟨acc.reverse⟩ :: splitWsAux cs []
    else splitWsAux cs (c :: acc)

/-- Python str.split() with no separator. -/
def pySplit (s : String) : List String := splitWsAux s.data []

/-- The command allowlist of MCPService._execute_command. -/
def allowed_commands : List String := ["ls", "pwd", "echo", "date", "whoami"]

/-- Outcome of MCPService._execute_command up to the decision whether a
subprocess is spawned. -/
inductive CmdOutcome
  | valueError (msg : String)
  | indexError
  | spawned (command : String)
deriving DecidableEq

/-- MCPService._execute_command (mcp_service.py lines 144-175), up to the
spawn decision: a missing or falsy (empty) command parameter raises
ValueError; the first whitespace token is checked against the allowlist and
a disallowed one raises ValueError; only an allowed one reaches
subprocess.run. Indexing cmd_parts[0] of a whitespace-only command raises
IndexError. -/
def _execute_command (command? : Option String) : CmdOutcome :=
  match command? with
  | none => .valueError "Missing required parameter: command"
  | some c =>
    if c = "" then .valueError "Missing required parameter: command"
    else
      match pySplit c with
      | [] => .indexError
      | t :: _ =>
        if allowed_commands.contains t then .spawned c
        else .valueError ("Command not allowed: " ++ t)

/-! Helper lemmas: which parts of the world each primitive touches. -/

theorem mkdirP_env (w : World) (p : String) :
    (mkdirP w p).envRecordingsDir = w.envRecordingsDir := by
  unfold mkdirP; split <;> rfl

theorem mkdirP_cfg (w : World) (p : String) :
    (mkdirP w p).configRecordingsDir = w.configRecordingsDir := by
  unfold mkdirP; split <;> rfl

theorem mkdirP_home (w : World) (p : String) : (mkdirP w p).home = w.home := by
  unfold mkdirP; split <;> rfl

theorem mkdirP_cwd (w : World) (p : String) : (mkdirP w p).cwd = w.cwd := by
  unfold mkdirP; split <;> rfl

theorem mkdirP_now (w : World) (p : String) : (mkdirP w p).now = w.now := by
  unfold mkdirP; split <;> rfl

theorem mkdirP_nextPid (w : World) (p : String) :
    (mkdirP w p).nextPid = w.nextPid := by
  unfold mkdirP; split <;> rfl

theorem mkdirP_terminated (w : World) (p : String) :
    (mkdirP w p).terminated = w.terminated := by
  unfold mkdirP; split <;> rfl

theorem recordingsPath_congr {w w' : World}
    (h1 : w'.envRecordingsDir = w.envRecordingsDir)
    (h2 : w'.configRecordingsDir = w.configRecordingsDir)
    (h3 : w'.home = w.home) (h4 : w'.cwd = w.cwd) :
    recordingsPath w' = recordingsPath w := by
  simp only [recordingsPath, absPathW, expandHome, h1, h2, h3, h4]

theorem recordingsPath_mkdirP (w : World) (p : String) :
    recordingsPath (mkdirP w p) = recordingsPath w :=
  recordingsPath_congr (mkdirP_env w p) (mkdirP_cfg w p)
    (mkdirP_home w p) (mkdirP_cwd w p)

theorem mkdirP_of_exists {w : World} {p : String} (h : w.dirExists p = true) :
    mkdirP w p = w := by
  unfold mkdirP; rw [if_pos h]

theorem dirExists_mkdirP_self (w : World) (p : String) :
    (mkdirP w p).dirExists p = true := by
  unfold mkdirP
  by_cases h : w.dirExists p = true
  · rw [if_pos h]; exact h
  · rw [if_neg h]
    simp [World.dirExists]

theorem mkdirP_idem (w : World) (p : String) :
    mkdirP (mkdirP w p) p = mkdirP w p :=
  mkdirP_of_exists (dirExists_mkdirP_self w p)

theorem scandirSubdirs_congr {w w' : World} (h : w'.fs = w.fs) (base : String) :
    scandirSubdirs w' base = scandirSubdirs w base := by
  simp only [scandirSubdirs, h]

theorem mkdirP_fs_congr {w w' : World} (h5 : w'.now = w.now) (h6 : w'.fs = w.fs)
    (p : String) : (mkdirP w' p).fs = (mkdirP w p).fs := by
  unfold mkdirP World.dirExists
  by_cases h : (w.fs.any fun e => e.1 == p) = true
  · rw [if_pos h, if_pos (by rw [h6]; exact h)]
    exact h6
  · rw [if_neg h, if_neg (by rw [h6]; exact h)]
    show (p, w'.now) :: w'.fs = (p, w.now) :: w.fs
    rw [h5, h6]

/-- The world component returned by _get_latest_session_id is exactly the
one _get_recordings_dir produced. -/
theorem latest_world (v : World) :
    (_get_latest_session_id v).2 = mkdirP v (recordingsPath v) := by
  simp only [_get_latest_session_id, _get_recordings_dir]
  split <;> rfl

/-- The world component returned by _resolve_session_dir is the input world
with the recordings directory created. -/
theorem resolve_world (w : World) (sid : Option String) :
    (_resolve_session_dir w sid).2 = mkdirP w (recordingsPath w) := by
  cases sid with
  | some s => rfl
  | none =>
    have h := latest_world (mkdirP w (recordingsPath w))
    rw [recordingsPath_mkdirP, mkdirP_idem] at h
    simp only [_resolve_session_dir, _get_recordings_dir]
    split <;> simpa using h

/-- Which name _get_latest_session_id picks depends only on the directory
table, the chosen recordings path and the clock. -/
theorem latest_fst_congr {v v' : World}
    (hfs : v'.fs = v.fs) (hrp : recordingsPath v' = recordingsPath v)
    (hnow : v'.now = v.now) :
    (_get_latest_session_id v').1 = (_get_latest_session_id v).1 := by
  have h2 : (mkdirP v' (recordingsPath v)).fs =
      (mkdirP v (recordingsPath v)).fs := mkdirP_fs_congr hnow hfs _
  have hsc : scandirSubdirs (mkdirP v' (recordingsPath v')) (recordingsPath v') =
      scandirSubdirs (mkdirP v (recordingsPath v)) (recordingsPath v) := by
    rw [hrp]; exact scandirSubdirs_congr h2 _
  simp only [_get_latest_session_id, _get_recordings_dir]
  rw [hsc]
  by_cases hC : scandirSubdirs (mkdirP v (recordingsPath v)) (recordingsPath v) = [] <;>
    simp [hC]

/-- The directory _resolve_session_dir picks depends only on the
configuration fields, the clock and the directory table of the world, not
on the process bookkeeping. -/
theorem resolve_fst_congr {w w' : World}
    (h1 : w'.envRecordingsDir = w.envRecordingsDir)
    (h2 : w'.configRecordingsDir = w.configRecordingsDir)
    (h3 : w'.home = w.home) (h4 : w'.cwd = w.cwd)
    (h5 : w'.now = w.now) (h6 : w'.fs = w.fs) (sid : Option String) :
    (_resolve_session_dir w' sid).1 = (_resolve_session_dir w sid).1 := by
  have hrp : recordingsPath w' = recordingsPath w :=
    recordingsPath_congr h1 h2 h3 h4
  cases sid with
  | some s =>
    simp only [_resolve_session_dir, _get_recordings_dir, hrp]
  | none =>
    have hlat : (_get_latest_session_id (mkdirP w' (recordingsPath w))).1 =
        (_get_latest_session_id (mkdirP w (recordingsPath w))).1 := by
      apply latest_fst_congr
      · exact mkdirP_fs_congr h5 h6 _
      · rw [recordingsPath_mkdirP, recordingsPath_mkdirP, hrp]
      · rw [mkdirP_now, mkdirP_now, h5]
    simp only [_resolve_session_dir, _get_recordings_dir, hrp, hlat]
    rcases hX : (_get_latest_session_id (mkdirP w (recordingsPath w))).1 with _ | l <;>
      simp [hX]

theorem killPid_env (w : World) (q : Nat) :
    (killPid w q).envRecordingsDir = w.envRecordingsDir := rfl

theorem killPid_cfg (w : World) (q : Nat) :
    (killPid w q).configRecordingsDir = w.configRecordingsDir := rfl

theorem killPid_home (w : World) (q : Nat) : (killPid w q).home = w.home := rfl

theorem killPid_cwd (w : World) (q : Nat) : (killPid w q).cwd = w.cwd := rfl

theorem killPid_now (w : World) (q : Nat) : (killPid w q).now = w.now := rfl

theorem killPid_fs (w : World) (q : Nat) : (killPid w q).fs = w.fs := rfl

theorem killPid_nextPid (w : World) (q : Nat) :
    (killPid w q).nextPid = w.nextPid := rfl

/-- The world after deactivate_server differs from the one before at most in
the terminated list. -/
theorem deactivate_world (s : ClientState) (w : World) :
    ((deactivate_server s w).2.envRecordingsDir = w.envRecordingsDir ∧
     (deactivate_server s w).2.configRecordingsDir = w.configRecordingsDir ∧
     (deactivate_server s w).2.home = w.home ∧
     (deactivate_server s w).2.cwd = w.cwd) ∧
    ((deactivate_server s w).2.now = w.now ∧
     (deactivate_server s w).2.fs = w.fs ∧
     (deactivate_server s w).2.nextPid = w.nextPid) := by
  unfold deactivate_server
  split
  · exact ⟨⟨rfl, rfl, rfl, rfl⟩, rfl, rfl, rfl⟩
  · split
    · exact ⟨⟨rfl, rfl, rfl, rfl⟩, rfl, rfl, rfl⟩
    · exact ⟨⟨rfl, rfl, rfl, rfl⟩, rfl, rfl, rfl⟩

theorem resolve_nextPid (w : World) (sid : Option String) :
    (_resolve_session_dir w sid).2.nextPid = w.nextPid := by
  rw [resolve_world]; exact mkdirP_nextPid _ _

theorem resolve_terminated (w : World) (sid : Option String) :
    (_resolve_session_dir w sid).2.terminated = w.terminated := by
  rw [resolve_world]; exact mkdirP_terminated _ _

/-- Any roots/list request carrying an id that the read loop consumes gets a
correlated response carrying the precomputed roots payload. -/
theorem handshakeLoop_answers_roots (roots : List Root)
    (events : List HandshakeEvent) (m : InMsg) (i : Nat)
    (hmem : HandshakeEvent.msg m ∈ consumedEvents events)
    (hmeth : m.method = some "roots/list") (hid : m.id = some i) :
    OutEvent.rootsResponse i roots ∈ (handshakeLoop roots events).sent := by
  induction events with
  | nil => simp [consumedEvents] at hmem
  | cons e rest ih =>
    cases e with
    | timeout => simp [consumedEvents] at hmem
    | eof => simp [consumedEvents] at hmem
    | blank =>
      simp only [consumedEvents, List.mem_cons] at hmem
      rcases hmem with h | h
      · exact absurd h (by simp)
      · exact ih h
    | malformed =>
      simp only [consumedEvents, List.mem_cons] at hmem
      rcases hmem with h | h
      · exact absurd h (by simp)
      · exact ih h
    | msg m' =>
      simp only [consumedEvents, List.mem_cons] at hmem
      rcases hmem with h | h
      · have hm : m' = m := by injection h.symm
        subst hm
        have hc : m'.method = some "roots/list" ∧ m'.id.isSome := by
          exact ⟨hmeth, by rw [hid]; rfl⟩
        simp only [handshakeLoop, dif_pos hc]
        have hgi : m'.id.get hc.2 = i := by
          simp only [hid, Option.get_some]
        rw [hgi]
        exact List.mem_cons_self _ _
      · have hrec := ih h
        by_cases hc : m'.method = some "roots/list" ∧ m'.id.isSome
        · simp only [handshakeLoop, dif_pos hc]
          exact List.mem_cons_of_mem _ hrec
        · by_cases hc2 : m'.id = some 1 ∧ (m'.hasResult ∨ m'.hasError)
          · simp only [handshakeLoop, dif_neg hc, if_pos hc2]
            exact List.mem_append_right _ hrec
          · simpa only [handshakeLoop, dif_neg hc, if_neg hc2] using hrec

/-! Concrete fixtures shared by witnesses and counterexamples. -/

/-- An enabled filesystem server definition. -/
def fsConfig : MCPServerConfig :=
  { name := "filesystem", command := "npx", args := ["-y", "pkg"] }

/-- An enabled in-memory server definition. -/
def memConfig : MCPServerConfig := { name := "memory", command := "npx", args := [] }

/-- A registry with both servers configured and nothing active. -/
def idleState : ClientState :=
  { servers := [("filesystem", fsConfig), ("memory", memConfig)] }

/-- A registry in which the memory server is active with pid 4. -/
def memActiveState : ClientState :=
  { servers := [("filesystem", fsConfig), ("memory", memConfig)],
    active_server := some "memory", server_processes := [("memory", 4)] }

/-- A registry in which the filesystem server is active with pid 0. -/
def fsActiveState : ClientState :=
  { servers := [("filesystem", fsConfig)],
    active_server := some "filesystem", server_processes := [("filesystem", 0)] }

/-- A world whose recordings root exists and has no subdirectories. -/
def emptyRecWorld : World :=
  { envRecordingsDir := some "/rec", fs := [("/rec", 0)], nextPid := 5 }

/-- A world whose recordings root has subdirectories A (older, mtime 1) and
B (newer, mtime 2). -/
def abRecWorld : World :=
  { envRecordingsDir := some "/rec",
    fs := [("/rec", 0), ("/rec/A", 1), ("/rec/B", 2)], nextPid := 5 }

/-- A child that stays alive but sends nothing before the deadline. -/
def silentChild : ChildBehavior := { events := [.timeout] }

/-- A child that requests roots/list with id 7 and then acknowledges the
initialize request. -/
def politeChild : ChildBehavior :=
  { events := [.msg { method := some "roots/list", id := some 7 },
               .msg { id := some 1, hasResult := true }, .timeout] }

/-- A child that exits during the post-spawn grace period with the text
boots on stderr. -/
def dyingChild : ChildBehavior := { exitedDuringGrace := true, stderrText := "boom" }

/-! The claims. -/

/-- C1: the claim fails on the code. With an enabled filesystem server and a
child that stays alive but never answers the initialize request before the
deadline, activate_server returns true and marks the server active even
though the loop's init_done flag is still false — the initialize response
was never seen (the source computes init_done but never consults it, and
never kills the child in this situation). -/
theorem C1_activate_true_without_init_response :
    (activate_server idleState emptyRecWorld "filesystem" none silentChild).ok = true ∧
    (activate_server idleState emptyRecWorld "filesystem" none silentChild).initDone = false ∧
    (activate_server idleState emptyRecWorld "filesystem" none silentChild).state.active_server
      = some "filesystem" ∧
    silentChild.events.all (fun e => !isInitResponse e) = true := by
  decide

/-- C4 counterexample: with the filesystem server active (pid 0) and its
stdout pipe closed (readline yields end-of-file), execute_tool returns a
transport error but the active slot is not cleared: the subsequent query
still reports the filesystem server, refuting the claim that it reports
none. -/
theorem C4_counterexample_slot_not_cleared :
    (execute_tool fsActiveState .eof).1 =
      ExecResult.errResult "No response from MCP server" ∧
    (execute_tool fsActiveState .eof).2.active_server = some "filesystem" := by
  decide

/-- C4 amended: when the active server's stdout pipe closes while
execute_tool awaits its response, the call returns the transport-error
result at once (readline yields end-of-file rather than blocking), but the
registry state is left unchanged — the active slot still holds the server;
execute_tool applies no per-call timeout and never clears the slot (only
list_tools does that for a dead process). -/
theorem C4_transport_error_state_unchanged (s : ClientState) (a : String)
    (hA : s.active_server = some a)
    (hP : (s.server_processes.lookup a).isSome = true) :
    execute_tool s .eof =
      (ExecResult.errResult "No response from MCP server", s) ∧
    (execute_tool s .eof).2.active_server = some a := by
  obtain ⟨pid, hpid⟩ := Option.isSome_iff_exists.mp hP
  have h1 : execute_tool s .eof =
      (ExecResult.errResult "No response from MCP server", s) := by
    simp [execute_tool, hA, hpid]
  exact ⟨h1, by rw [h1]; exact hA⟩

/-- C4 witness: the amended theorem applied at the concrete active registry. -/
theorem C4_transport_error_state_unchanged_witness :
    execute_tool fsActiveState .eof =
      (ExecResult.errResult "No response from MCP server", fsActiveState) ∧
    (execute_tool fsActiveState .eof).2.active_server = some "filesystem" :=
  C4_transport_error_state_unchanged fsActiveState "filesystem" (by decide) (by decide)

/-- C5 counterexample: list_tools with no active server returns the plain
empty list — exactly the value a successful listing with zero tools returns
on an active server — not a structured no-active-server error value. -/
theorem C5_counterexample_list_tools_plain_empty :
    idleState.active_server = none ∧
    (list_tools idleState true .timeout).1 = some [] ∧
    fsActiveState.active_server = some "filesystem" ∧
    (list_tools fsActiveState true (.line { hasResultTools := true })).1 = some [] := by
  decide

/-- C5 amended: with no active server neither operation raises or blocks:
execute_tool returns the structured error dict with message "No active MCP
server" and leaves the state unchanged, while list_tools returns the plain
empty list (the same value as a successful listing of zero tools), also
leaving the state unchanged. -/
theorem C5_no_active_server_results (s : ClientState)
    (h : s.active_server = none) :
    (∀ r, execute_tool s r = (ExecResult.errResult "No active MCP server", s)) ∧
    (∀ alive r, list_tools s alive r = (some [], s)) := by
  constructor
  · intro r; simp [execute_tool, h]
  · intro alive r; simp [list_tools, h]

/-- C5 witness: the amended theorem applied at the idle registry. -/
theorem C5_no_active_server_results_witness :
    execute_tool idleState .eof =
      (ExecResult.errResult "No active MCP server", idleState) ∧
    list_tools idleState true .timeout = (some [], idleState) :=
  ⟨(C5_no_active_server_results idleState (by decide)).1 .eof,
   (C5_no_active_server_results idleState (by decide)).2 true .timeout⟩

/-- C8: resolving the session directory twice in succession with the same
explicit session id and no intervening changes yields the same directory
path both times. -/
theorem C8_resolve_idempotent (w : World) (sid : String) :
    (_resolve_session_dir (_resolve_session_dir w (some sid)).2 (some sid)).1 =
      (_resolve_session_dir w (some sid)).1 := by
  rw [resolve_world]
  simp only [_resolve_session_dir, _get_recordings_dir]
  rw [recordingsPath_mkdirP]

/-- C9: _execute_command raises ValueError when the command parameter is
missing or its first whitespace token is outside the allowlist, and a
subprocess is spawned only when the first token is in the allowlist. -/
theorem C9_command_allowlist (command? : Option String) :
    ((command? = none ∨
        ∃ c t ts, command? = some c ∧ pySplit c = t :: ts ∧
          allowed_commands.contains t = false) →
      ∃ msg, _execute_command command? = CmdOutcome.valueError msg) ∧
    (∀ c, _execute_command command? = CmdOutcome.spawned c →
      ∃ t ts, pySplit c = t :: ts ∧ allowed_commands.contains t = true) := by
  constructor
  · rintro (rfl | ⟨c, t, ts, rfl, hsplit, hcont⟩)
    · exact ⟨"Missing required parameter: command", rfl⟩
    · by_cases hc : c = ""
      · exact ⟨"Missing required parameter: command", by
          simp only [_execute_command, if_pos hc]⟩
      · refine ⟨"Command not allowed: " ++ t, ?_⟩
        simp only [_execute_command, if_neg hc, hsplit]
        rw [if_neg (by rw [hcont]; simp)]
  · intro c hspawn
    cases command? with
    | none => exact absurd hspawn (by simp [_execute_command])
    | some c0 =>
      by_cases hc : c0 = ""
      · rw [show _execute_command (some c0) =
            CmdOutcome.valueError "Missing required parameter: command" from by
            simp only [_execute_command, if_pos hc]] at hspawn
        cases hspawn
      · rcases hs : pySplit c0 with _ | ⟨t, ts⟩
        · rw [show _execute_command (some c0) = CmdOutcome.indexError from by
            simp only [_execute_command, if_neg hc, hs]] at hspawn
          cases hspawn
        · by_cases hcont : allowed_commands.contains t = true
          · rw [show _execute_command (some c0) = CmdOutcome.spawned c0 from by
              simp only [_execute_command, if_neg hc, hs]
              rw [if_pos hcont]] at hspawn
            injection hspawn with h
            exact ⟨t, ts, h ▸ hs, hcont⟩
          · rw [show _execute_command (some c0) =
                CmdOutcome.valueError ("Command not allowed: " ++ t) from by
              simp only [_execute_command, if_neg hc, hs]
              rw [if_neg hcont]] at hspawn
            cases hspawn

/-- C9 witness: the theorem applied at the concrete command "rm -rf /",
whose first token is outside the allowlist. -/
theorem C9_command_allowlist_witness :
    ∃ msg, _execute_command (some "rm -rf /") = CmdOutcome.valueError msg :=
  (C9_command_allowlist (some "rm -rf /")).1
    (Or.inr ⟨"rm -rf /", "rm", ["-rf", "/"], rfl, by decide, by decide⟩)

/-- C6: when the child process exits before sending an initialize response —
whether poll detects this right after the grace period or only after the
read loop — activate_server returns false and the text read from the
child's stderr appears in the error-log message that surfaces the failure. -/
theorem C6_child_exit_stderr_surfaced (s : ClientState) (w : World)
    (server_name : String) (sid : Option String) (b : ChildBehavior)
    (cfg : MCPServerConfig)
    (hlk : s.servers.lookup server_name = some cfg)
    (hen : cfg.enabled = true)
    (hnoinit : (consumedEvents b.events).all (fun e => !isInitResponse e) = true)
    (hexit : b.exitedDuringGrace = true ∨ b.exitedAtFinalPoll = true) :
    (activate_server s w server_name sid b).ok = false ∧
    ∃ e ∈ (activate_server s w server_name sid b).errorLog,
      ∃ pre, e = pre ++ b.stderrText := by
  cases hg : b.exitedDuringGrace with
  | true =>
    have hok : (activate_server s w server_name sid b).ok = false := by
      simp [activate_server, hlk, hen, hg]
    have hlog : (activate_server s w server_name sid b).errorLog =
        [("MCP server " ++ server_name ++ " failed to start: ") ++ b.stderrText] := by
      simp [activate_server, hlk, hen, hg]
    refine ⟨hok, ("MCP server " ++ server_name ++ " failed to start: ") ++ b.stderrText,
      ?_, "MCP server " ++ server_name ++ " failed to start: ", rfl⟩
    rw [hlog]
    exact List.mem_singleton.mpr rfl
  | false =>
    have hf : b.exitedAtFinalPoll = true := by
      rcases hexit with h | h
      · rw [hg] at h; cases h
      · exact h
    have hok : (activate_server s w server_name sid b).ok = false := by
      by_cases hfs : server_name = "filesystem"
      · subst hfs; simp [activate_server, hlk, hen, hg, hf]
      · simp [activate_server, hlk, hen, hg, hf, hfs]
    have hlog : (activate_server s w server_name sid b).errorLog =
        ["MCP server terminated after init: " ++ b.stderrText] := by
      by_cases hfs : server_name = "filesystem"
      · subst hfs; simp [activate_server, hlk, hen, hg, hf]
      · simp [activate_server, hlk, hen, hg, hf, hfs]
    refine ⟨hok, "MCP server terminated after init: " ++ b.stderrText,
      ?_, "MCP server terminated after init: ", rfl⟩
    rw [hlog]
    exact List.mem_singleton.mpr rfl

/-- C6 witness: the theorem applied at a child that dies during the grace
period with the text boom on stderr. -/
theorem C6_child_exit_stderr_surfaced_witness :
    (activate_server idleState emptyRecWorld "filesystem" none dyingChild).ok = false ∧
    ∃ e ∈ (activate_server idleState emptyRecWorld "filesystem" none dyingChild).errorLog,
      ∃ pre, e = pre ++ dyingChild.stderrText :=
  C6_child_exit_stderr_surfaced idleState emptyRecWorld "filesystem" none dyingChild
    fsConfig (by decide) (by decide) (by decide) (Or.inl (by decide))

/-- The lines activate_server writes for the filesystem server when the
child survives the grace period: the initialize request followed by the read
loop's output over the roots payload of the resolved session directory. -/
theorem activate_fs_sent (s : ClientState) (w : World) (sid : Option String)
    (b : ChildBehavior) (cfg : MCPServerConfig)
    (hlk : s.servers.lookup "filesystem" = some cfg)
    (hen : cfg.enabled = true) (hg : b.exitedDuringGrace = false) :
    (activate_server s w "filesystem" sid b).sent =
      OutEvent.initRequest ::
        (handshakeLoop
          (_build_roots (_resolve_session_dir
            (if s.active_server.isSome then deactivate_server s w else (s, w)).2 sid).1)
          b.events).sent := by
  by_cases hf : b.exitedAtFinalPoll <;>
    simp [activate_server, hlk, hen, hg, hf]

theorem World.dirExists_set_nextPid (w : World) (n : Nat) (p : String) :
    ({ w with nextPid := n } : World).dirExists p = w.dirExists p := rfl

/-- Whatever the final poll reports, the world activate_server leaves behind
for the filesystem server contains the resolved session directory: it was
created before the initialize request was sent. -/
theorem activate_fs_dirExists (s : ClientState) (w : World) (sid : Option String)
    (b : ChildBehavior) (cfg : MCPServerConfig)
    (hlk : s.servers.lookup "filesystem" = some cfg)
    (hen : cfg.enabled = true) (hg : b.exitedDuringGrace = false) :
    (activate_server s w "filesystem" sid b).world.dirExists
      (_resolve_session_dir
        (if s.active_server.isSome then deactivate_server s w else (s, w)).2 sid).1
      = true := by
  by_cases hf : b.exitedAtFinalPoll <;>
    simp [activate_server, hlk, hen, hg, hf,
      World.dirExists_set_nextPid, dirExists_mkdirP_self]

/-- C3: while activating the filesystem server with a child that survives
the grace period, every roots/list request carrying an id that the read
loop consumes — before or after the initialize response — is answered with
a response carrying that id and the single-entry roots payload of the
resolved session directory, and that directory exists in the world (it was
created before the handshake began, and nothing in the loop removes it). -/
theorem C3_roots_list_answered (s : ClientState) (w : World)
    (sid : Option String) (b : ChildBehavior) (cfg : MCPServerConfig)
    (m : InMsg) (i : Nat)
    (hlk : s.servers.lookup "filesystem" = some cfg)
    (hen : cfg.enabled = true)
    (hg : b.exitedDuringGrace = false)
    (hmem : HandshakeEvent.msg m ∈ consumedEvents b.events)
    (hmeth : m.method = some "roots/list")
    (hid : m.id = some i) :
    OutEvent.rootsResponse i (_build_roots (_resolve_session_dir w sid).1)
      ∈ (activate_server s w "filesystem" sid b).sent ∧
    (activate_server s w "filesystem" sid b).world.dirExists
      (_resolve_session_dir w sid).1 = true := by
  have hcong : (_resolve_session_dir
      (if s.active_server.isSome then deactivate_server s w else (s, w)).2 sid).1 =
      (_resolve_session_dir w sid).1 := by
    by_cases hA : s.active_server.isSome
    · rw [if_pos hA]
      have hd := deactivate_world s w
      exact resolve_fst_congr hd.1.1 hd.1.2.1 hd.1.2.2.1 hd.1.2.2.2
        hd.2.1 hd.2.2.1 sid
    · rw [if_neg hA]
  constructor
  · rw [activate_fs_sent s w sid b cfg hlk hen hg, hcong]
    exact List.mem_cons_of_mem _
      (handshakeLoop_answers_roots _ b.events m i hmem hmeth hid)
  · have h2 := activate_fs_dirExists s w sid b cfg hlk hen hg
    rwa [hcong] at h2

/-- C3 witness: the theorem applied at a child that asks roots/list with id
7 before acknowledging initialize. -/
theorem C3_roots_list_answered_witness :
    OutEvent.rootsResponse 7
        (_build_roots (_resolve_session_dir emptyRecWorld (some "S")).1)
      ∈ (activate_server idleState emptyRecWorld "filesystem" (some "S") politeChild).sent ∧
    (activate_server idleState emptyRecWorld "filesystem" (some "S") politeChild).world.dirExists
      (_resolve_session_dir emptyRecWorld (some "S")).1 = true :=
  C3_roots_list_answered idleState emptyRecWorld (some "S") politeChild fsConfig
    { method := some "roots/list", id := some 7 } 7
    (by decide) (by decide) (by decide) (by decide) (by decide) (by decide)

/-- C2: activating server B while server A is active (with A owning the only
process-table entry, and the world's pid bookkeeping consistent) deactivates
A first: if the activation returns true, B is the single active server, the
process table holds exactly B's freshly spawned, still-running process, and
A's process has been terminated. -/
theorem C2_single_active_server (s : ClientState) (w : World)
    (nameA nameB : String) (pA : Nat) (sid : Option String) (b : ChildBehavior)
    (hA : s.active_server = some nameA)
    (hT : s.server_processes = [(nameA, pA)])
    (hpA : pA < w.nextPid)
    (hterm : ∀ q ∈ w.terminated, q < w.nextPid)
    (hok : (activate_server s w nameB sid b).ok = true) :
    (activate_server s w nameB sid b).state.active_server = some nameB ∧
    (∃ pB, (activate_server s w nameB sid b).state.server_processes = [(nameB, pB)] ∧
      pB ∉ (activate_server s w nameB sid b).world.terminated) ∧
    pA ∈ (activate_server s w nameB sid b).world.terminated := by
  rcases hlk : s.servers.lookup nameB with _ | cfg
  · simp [activate_server, hlk] at hok
  rcases hen : cfg.enabled with _ | _
  · simp [activate_server, hlk, hen] at hok
  rcases hg : b.exitedDuringGrace with _ | _
  case true => simp [activate_server, hlk, hen, hg] at hok
  rcases hf : b.exitedAtFinalPoll with _ | _
  case true =>
    by_cases hfs : nameB = "filesystem"
    · subst hfs; simp [activate_server, hlk, hen, hg, hf] at hok
    · simp [activate_server, hlk, hen, hg, hf, hfs] at hok
  have hTA : (deactivate_server s w).1.server_processes = [] := by
    simp [deactivate_server, hA, hT, List.lookup]
  have hTW : (deactivate_server s w).2 = killPid w pA := by
    simp [deactivate_server, hA, hT, List.lookup]
  by_cases hfs : nameB = "filesystem"
  · subst hfs
    refine ⟨by simp [activate_server, hlk, hen, hg, hf, hA], ⟨w.nextPid, ?_, ?_⟩, ?_⟩
    · simp [activate_server, hlk, hen, hg, hf, hA, hTA, hTW, insertProc,
        mkdirP_nextPid, resolve_nextPid, killPid]
    · simp only [activate_server, hlk, hen, hg, hf, hA]
      simp [hTW, mkdirP_terminated, resolve_terminated, killPid]
      exact ⟨Ne.symm (Nat.ne_of_lt hpA), fun h => Nat.lt_irrefl _ (hterm _ h)⟩
    · simp only [activate_server, hlk, hen, hg, hf, hA]
      simp [hTW, mkdirP_terminated, resolve_terminated, killPid]
  · refine ⟨by simp [activate_server, hlk, hen, hg, hf, hfs, hA],
      ⟨w.nextPid, ?_, ?_⟩, ?_⟩
    · simp [activate_server, hlk, hen, hg, hf, hfs, hA, hTA, hTW, insertProc, killPid]
    · simp only [activate_server, hlk, hen, hg, hf, hfs, hA]
      simp [hTW, killPid]
      exact ⟨Ne.symm (Nat.ne_of_lt hpA), fun h => Nat.lt_irrefl _ (hterm _ h)⟩
    · simp only [activate_server, hlk, hen, hg, hf, hfs, hA]
      simp [hTW, killPid]

/-- C2 witness: activating the filesystem server while the memory server is
active with pid 4 terminates pid 4 and leaves the filesystem server as the
only entry. -/
theorem C2_single_active_server_witness :
    (activate_server memActiveState emptyRecWorld "filesystem" none silentChild).state.active_server
      = some "filesystem" ∧
    (∃ pB, (activate_server memActiveState emptyRecWorld "filesystem" none silentChild).state.server_processes
        = [("filesystem", pB)] ∧
      pB ∉ (activate_server memActiveState emptyRecWorld "filesystem" none silentChild).world.terminated) ∧
    4 ∈ (activate_server memActiveState emptyRecWorld "filesystem" none silentChild).world.terminated :=
  C2_single_active_server memActiveState emptyRecWorld "memory" "filesystem" 4 none
    silentChild (by decide) (by decide) (by decide) (by decide) (by decide)

/-- C7: resolving with no session id returns the most recently modified
immediate subdirectory of the recordings root as listed when the function
scans it, and the recordings root itself when there are no subdirectories. -/
theorem C7_latest_session_resolution (w : World) :
    (scandirSubdirs (mkdirP w (recordingsPath w)) (recordingsPath w) = [] →
      (_resolve_session_dir w none).1 = recordingsPath w) ∧
    (scandirSubdirs (mkdirP w (recordingsPath w)) (recordingsPath w) ≠ [] →
      ∃ n t, (n, t) ∈ scandirSubdirs (mkdirP w (recordingsPath w)) (recordingsPath w) ∧
        (_resolve_session_dir w none).1 = recordingsPath w ++ "/" ++ n ∧
        ∀ p ∈ scandirSubdirs (mkdirP w (recordingsPath w)) (recordingsPath w),
          p.2 ≤ t) := by
  have hlat1 : (_get_latest_session_id (mkdirP w (recordingsPath w))).1 =
      (if scandirSubdirs (mkdirP w (recordingsPath w)) (recordingsPath w) = [] then none
       else ((scandirSubdirs (mkdirP w (recordingsPath w)) (recordingsPath w)).mergeSort
          (fun a b => decide (b.2 ≤ a.2))).head?.map Prod.fst) := by
    simp only [_get_latest_session_id, _get_recordings_dir, recordingsPath_mkdirP,
      mkdirP_idem]
    by_cases hC : scandirSubdirs (mkdirP w (recordingsPath w)) (recordingsPath w) = [] <;>
      simp [hC]
  constructor
  · intro hC
    simp only [_resolve_session_dir, _get_recordings_dir]
    rw [hlat1, if_pos hC]
  · intro hC
    rcases hsort : (scandirSubdirs (mkdirP w (recordingsPath w)) (recordingsPath w)).mergeSort
        (fun a b => decide (b.2 ≤ a.2)) with _ | ⟨x, xs⟩
    · exact absurd (List.length_eq_zero.mp (by
        rw [← (List.mergeSort_perm (scandirSubdirs (mkdirP w (recordingsPath w))
          (recordingsPath w)) (fun a b => decide (b.2 ≤ a.2))).length_eq, hsort, List.length_nil]))
        hC
    · have hperm := List.mergeSort_perm (scandirSubdirs (mkdirP w (recordingsPath w))
        (recordingsPath w)) (fun a b => decide (b.2 ≤ a.2))
      have hmemx : x ∈ scandirSubdirs (mkdirP w (recordingsPath w)) (recordingsPath w) :=
        hperm.mem_iff.mp (by rw [hsort]; exact List.mem_cons_self _ _)
      have hpair : List.Pairwise (fun a b => (fun a b => decide (b.2 ≤ a.2)) a b = true)
          ((scandirSubdirs (mkdirP w (recordingsPath w)) (recordingsPath w)).mergeSort
            (fun a b => decide (b.2 ≤ a.2))) := by
        apply List.sorted_mergeSort
        · intro a b c hab hbc
          simp only [decide_eq_true_eq] at hab hbc ⊢
          exact Nat.le_trans hbc hab
        · intro a b
          rcases Nat.le_total b.2 a.2 with h | h <;> simp [h]
      refine ⟨x.1, x.2, hmemx, ?_, ?_⟩
      · simp only [_resolve_session_dir, _get_recordings_dir]
        rw [hlat1, if_neg hC, hsort]
        simp
      · intro p hp
        have hp' : p ∈ x :: xs := by
          rw [← hsort]; exact hperm.mem_iff.mpr hp
        rcases List.mem_cons.mp hp' with rfl | hp2
        · exact Nat.le_refl _
        · rw [hsort] at hpair
          have := (List.pairwise_cons.mp hpair).1 p hp2
          simpa using this

/-- C7 witness: the theorem applied at a root with no subdirectories (first
part) and at a root with subdirectories A (mtime 1) and B (mtime 2). -/
theorem C7_latest_session_resolution_witness :
    ((_resolve_session_dir emptyRecWorld none).1 = recordingsPath emptyRecWorld) ∧
    (∃ n t, (n, t) ∈ scandirSubdirs (mkdirP abRecWorld (recordingsPath abRecWorld))
        (recordingsPath abRecWorld) ∧
      (_resolve_session_dir abRecWorld none).1 = recordingsPath abRecWorld ++ "/" ++ n ∧
      ∀ p ∈ scandirSubdirs (mkdirP abRecWorld (recordingsPath abRecWorld))
          (recordingsPath abRecWorld), p.2 ≤ t) :=
  ⟨(C7_latest_session_resolution emptyRecWorld).1 (by decide),
   (C7_latest_session_resolution abRecWorld).2 (by decide)⟩

/-- C10: for every path, the roots payload built by _build_roots has exactly
one entry, and its name is the path's base name, the literal "root" when the
base name is empty. -/
theorem C10_build_roots_single_entry (p : String) :
    (_build_roots p).length = 1 ∧
    (_build_roots p).map Root.name =
      [if pathlibName p = "" then "root" else pathlibName p] := by
  constructor
  · rfl
  · simp [_build_roots]

end Screen2Action
